import Mathlib

/-!
Verification of the experiment-tracking core of src/rice_classification_binary.py:
ExperimentSettings, Experiment (TrainedRun), train_model (Trainer), evaluate_experiment
(Evaluator) and compare_experiment (Comparator), shallowly embedded in Lean.

Conventions of the embedding:
- Python floats carry no arithmetic in any property checked here (metric values are
  only stored, looked up and compared), so scalar values are embedded as Rat.
- Python ints are embedded as Int (they can be negative, which matters for the
  validation claims about number_epochs and batch_size).
- A pandas DataFrame used as a keyed column store (dataset, metrics_history) is
  embedded as an association list from column name to column values; membership
  (the Python "in" test) is key lookup, and DataFrame construction from a dict
  gives distinct keys in insertion order.
- A Python exception is an Except error value; the error kinds that the embedded
  code can raise are ValueError (with its message string), KeyError and IndexError.
- The keras modeling collaborator is outside the repository; its model handle is
  embedded as an opaque record per spec section 6 (construct-model, fit, evaluate),
  with the per-epoch and per-evaluation scalar values left as abstract functions.
-/

namespace RiceClassification

/-- Error kinds the embedded Python code can raise: ValueError with its message,
KeyError on a missing dict or DataFrame key, IndexError on an out-of-range list
index (the index accessed is recorded). -/
inductive PyError where
  | valueError (msg : String)
  | keyError (key : String)
  | indexError (idx : Nat)
deriving DecidableEq

/-- A tabular dataset with named columns (the embedding of a pandas DataFrame used
as a column store): column name to column values. -/
abbrev Dataset := List (String × List Rat)

/-- Source lines 107-115: the ExperimentSettings dataclass. Declared with a plain
`dataclasses.dataclass()` decorator: not frozen, and with no validation of any
kind in its generated constructor. -/
structure ExperimentSettings where
  learning_rate : Rat
  number_epochs : Int
  batch_size : Int
  classification_threshold : Rat
  input_features : List String
deriving DecidableEq

/-- Modelled from the spec: the modeling collaborator's model handle (spec section 6).
It records the input slot names and the instrumented metric names, and carries the
collaborator's numeric behavior abstractly: fitValue gives the recorded value of a
metric at an epoch given the training inputs, evalValue gives the scalar value of a
metric for an evaluation call given the evaluation inputs and the batch size. -/
structure Model where
  inputNames : List String
  metricNames : List String
  fitValue : String → Nat → List (String × List Rat) → List Rat → Int → Rat
  evalValue : String → List (String × List Rat) → List Rat → Int → Rat

/-- Modelled from the spec: the history object returned by the collaborator's fit
(spec sections 4.1 and 6): the list of completed epoch indices, and the per-epoch
value sequence for each instrumented metric. -/
structure History where
  epoch : List Nat
  history : List (String × List Rat)

/-- Modelled from the spec: fit runs number_epochs passes and, on each epoch, appends
one value per instrumented metric to the history (spec section 4.1), so epoch is the
0-based index list and every metric name maps to a sequence of that length. A negative
epoch count is clamped to zero passes. -/
def Model.fit (m : Model) (x : List (String × List Rat)) (y : List Rat)
    (batch_size : Int) (epochs : Int) : History :=
  { epoch := List.range epochs.toNat
    history := m.metricNames.map fun name =>
      (name, (List.range epochs.toNat).map fun ep => m.fitValue name ep x y batch_size) }

/-- Modelled from the spec: evaluate computes a scalar metric mapping over the held-out
inputs at the given batch size (spec section 6), one entry per instrumented metric. -/
def Model.evaluate (m : Model) (x : List (String × List Rat)) (y : List Rat)
    (batch_size : Int) : List (String × Rat) :=
  m.metricNames.map fun name => (name, m.evalValue name x y batch_size)

/-- Source lines 118-126: the Experiment dataclass (the TrainedRun of the spec):
name, settings, model handle, completed epoch indices, and the per-epoch metrics
history keyed by metric name (a DataFrame, embedded as an association list). -/
structure Experiment where
  name : String
  settings : ExperimentSettings
  model : Model
  epochs : List Nat
  metrics_history : List (String × List Rat)

/-- Column names of a keyed column store, in order (the embedding of
list(df.columns)). -/
def columnNames (h : List (String × List Rat)) : List String :=
  h.map Prod.fst

/-- Rendering of a Python list of strings for an error message, embedded as the
names joined by comma-space inside square brackets (the surrounding quote
characters of the Python repr are dropped; only the names themselves matter to
the properties checked here). -/
def commaJoin : List String → String
  | [] => ""
  | [c] => c
  | c :: rest => c ++ ", " ++ commaJoin rest

/-- Source lines 131-134: the ValueError message raised by get_final_metric_value,
naming the requested metric and listing the available column names. -/
def unknownMetricMessage (metric_name : String) (cols : List String) : String :=
  "Unknown metric " ++ metric_name ++ ": available metrics are [" ++ commaJoin cols ++ "]"

/-- Substring containment: msg contains sub as a contiguous substring. -/
def mentions (msg sub : String) : Prop :=
  ∃ a b : String, msg = a ++ (sub ++ b)

/-- Source lines 128-135: get_final_metric_value. Membership test on the
metrics_history columns; on failure a ValueError naming the metric and listing the
columns; on success the last element of the column (iloc at -1, an IndexError when
the column is empty). -/
def Experiment.get_final_metric_value (e : Experiment) (metric_name : String) :
    Except PyError Rat :=
  match List.lookup metric_name e.metrics_history with
  | none =>
    .error (.valueError (unknownMetricMessage metric_name (columnNames e.metrics_history)))
  | some col =>
    match col.getLast? with
    | none => .error (.indexError 0)
    | some v => .ok v

/-- Sequential mapping with exception propagation: the embedding of a Python loop
or comprehension whose body may raise, stopping at the first raised error. -/
def mapExcept {α β ε : Type} (f : α → Except ε β) : List α → Except ε (List β)
  | [] => .ok []
  | x :: xs =>
    match f x with
    | .error e => .error e
    | .ok y =>
      match mapExcept f xs with
      | .error e => .error e
      | .ok ys => .ok (y :: ys)

/-- Source lines 181-184 and 261-264: the features dict comprehension, reading one
column per configured input feature; a missing column is a KeyError (the DataError
of the spec, surfaced from the collaborator and not recovered). -/
def extractFeatures (input_features : List String) (dataset : Dataset) :
    Except PyError (List (String × List Rat)) :=
  mapExcept (fun f =>
    match List.lookup f dataset with
    | none => .error (PyError.keyError f)
    | some col => .ok (f, col)) input_features

/-- Source lines 170-199: train_model. Builds the features dict from
settings.input_features, fits the model with the settings batch size and epoch
count, and returns the Experiment bundling the settings, the model, the history
epoch indices and the history values. -/
def train_model (experiment_name : String) (model : Model) (dataset : Dataset)
    (labels : List Rat) (settings : ExperimentSettings) : Except PyError Experiment :=
  match extractFeatures settings.input_features dataset with
  | .error err => .error err
  | .ok features =>
    let history := model.fit features labels settings.batch_size settings.number_epochs
    .ok { name := experiment_name
          settings := settings
          model := model
          epochs := history.epoch
          metrics_history := history.history }

/-- Source lines 258-271: evaluate_experiment. The first parameter is the
module-level settings binding (defined at source lines 224-230) that the function
body closes over: the features dict is built from experiment.settings.input_features,
but the batch size passed to model.evaluate is read from the module-level settings,
not from experiment.settings. -/
def evaluate_experiment (settings : ExperimentSettings) (experiment : Experiment)
    (test_dataset : Dataset) (test_labels : List Rat) :
    Except PyError (List (String × Rat)) :=
  match extractFeatures experiment.settings.input_features test_dataset with
  | .error err => .error err
  | .ok features =>
    .ok (experiment.model.evaluate features test_labels settings.batch_size)

/-- State-passing form of evaluate_experiment: the result together with the
post-call values of the experiment and of the module-level settings. The source
body (lines 258-271) contains no assignment to either, and the spec states the
model handle is invoked, never mutated, by the Evaluator, so the post-state is
the pre-state. -/
def evaluateStep (settings : ExperimentSettings) (experiment : Experiment)
    (test_dataset : Dataset) (test_labels : List Rat) :
    Except PyError (List (String × Rat)) × Experiment × ExperimentSettings :=
  (evaluate_experiment settings experiment test_dataset test_labels, experiment, settings)

/-- The ConfigError kind of the spec (section 7): what Settings construction would
raise if it validated its arguments. -/
inductive ConfigError where
  | configError (msg : String)
deriving DecidableEq

/-- Source lines 107-115: the generated dataclass constructor
ExperimentSettings(learning_rate, number_epochs, batch_size,
classification_threshold, input_features). It only assigns the fields: the source
performs no validation, so no ConfigError is ever produced. The Except result type
makes the possibility of failure statable. -/
def mkExperimentSettings (learning_rate : Rat) (number_epochs batch_size : Int)
    (classification_threshold : Rat) (input_features : List String) :
    Except ConfigError ExperimentSettings :=
  .ok { learning_rate := learning_rate
        number_epochs := number_epochs
        batch_size := batch_size
        classification_threshold := classification_threshold
        input_features := input_features }

/-- A field of ExperimentSettings together with a value to assign to it. -/
inductive SettingsField where
  | learning_rate (v : Rat)
  | number_epochs (v : Int)
  | batch_size (v : Int)
  | classification_threshold (v : Rat)
  | input_features (v : List String)

/-- Python attribute assignment on an ExperimentSettings instance. The dataclass at
source line 107 is declared without frozen, so assignment succeeds and updates the
field (a frozen dataclass would raise a FrozenInstanceError instead; the Except
result type makes that outcome statable). -/
def ExperimentSettings.setAttr (s : ExperimentSettings) :
    SettingsField → Except PyError ExperimentSettings
  | .learning_rate v => .ok { s with learning_rate := v }
  | .number_epochs v => .ok { s with number_epochs := v }
  | .batch_size v => .ok { s with batch_size := v }
  | .classification_threshold v => .ok { s with classification_threshold := v }
  | .input_features v => .ok { s with input_features := v }

/-- Validity of a Settings value per spec section 3: positive learning rate, positive
epoch count, positive batch size, threshold in the unit interval, non-empty feature
list. -/
def validSettings (s : ExperimentSettings) : Prop :=
  0 < s.learning_rate ∧ 0 < s.number_epochs ∧ 0 < s.batch_size ∧
    0 ≤ s.classification_threshold ∧ s.classification_threshold ≤ 1 ∧
    s.input_features ≠ []

instance (s : ExperimentSettings) : Decidable (validSettings s) := by
  unfold validSettings; infer_instance

/-- Source line 297: the ValueError message raised by the eager precondition check
of compare_experiment, naming the offending metric and experiment. -/
def unavailableMetricMessage (metric : String) (experiment_name : String) : String :=
  "Metric " ++ metric ++ " not available for experiment " ++ experiment_name

/-- Source lines 294-297, inner loop: the first experiment in list order whose
metrics_history lacks the given metric, if any. -/
def findMissingIn (metric : String) : List Experiment → Option String
  | [] => none
  | e :: rest =>
    if (List.lookup metric e.metrics_history).isNone then some e.name
    else findMissingIn metric rest

/-- Source lines 294-297: the eager precondition check of compare_experiment, outer
loop over metrics_of_interest, inner loop over experiments; the first (metric,
experiment name) pair at which the check raises, if any. -/
def findMissing : List String → List Experiment → Option (String × String)
  | [], _ => none
  | m :: rest, es =>
    match findMissingIn m es with
    | some n => some (m, n)
    | none => findMissing rest es

/-- Source line 303: the fixed list of 6 marker symbols. -/
def markers : List String :=
  [".", "*", "d", "s", "p", "x"]

/-- Source line 302: the color assigned to the run at a given index
(the f-string C followed by the index). -/
def colorOfRun (i : Nat) : String :=
  "C" ++ toString i

/-- One plotted training curve of the upper subplot of compare_experiment: the
(metric index, run index) pair it belongs to, the marker and color it was drawn
with, and the plotted x and y data. -/
structure TrainCurve where
  metricIndex : Nat
  runIndex : Nat
  marker : String
  color : String
  epochs : List Nat
  values : List Rat
deriving DecidableEq

/-- One custom legend entry of compare_experiment (source lines 313-318): a label
with either a marker (drawn in black, for a metric) or a color (for a run). -/
structure LegendEntry where
  label : String
  marker : Option String
  color : Option String
deriving DecidableEq

/-- The data assembled by compare_experiment for the presentation layer: the
training curves and legend of the upper subplot, and the per-run bar groups
(run name with one held-out score per metric of interest) of the lower subplot. -/
structure CompareOutput where
  trainCurves : List TrainCurve
  legend : List LegendEntry
  barGroups : List (String × List Rat)
deriving DecidableEq

/-- Source lines 309-310: the body of the train-curve plot loop at metric index i
and run index j: reads the metric column of the experiment history (a KeyError if
absent), then indexes the fixed marker list at i (an IndexError when i is out of
range); the color indexes the per-run color list, which has one entry per run, so
it is the color of run index j. -/
def trainCurveAt (i j : Nat) (metric : String) (e : Experiment) :
    Except PyError TrainCurve :=
  match List.lookup metric e.metrics_history with
  | none => .error (PyError.keyError metric)
  | some vals =>
    match markers[i]? with
    | none => .error (PyError.indexError i)
    | some mk =>
      .ok { metricIndex := i
            runIndex := j
            marker := mk
            color := colorOfRun j
            epochs := e.epochs
            values := vals }

/-- Source lines 308-310: the inner loop over enumerated experiments at a fixed
metric index, propagating the first raised error. -/
def trainCurvesInner (i : Nat) (metric : String) (j : Nat) :
    List Experiment → Except PyError (List TrainCurve)
  | [] => .ok []
  | e :: rest =>
    match trainCurveAt i j metric e with
    | .error err => .error err
    | .ok c =>
      match trainCurvesInner i metric (j + 1) rest with
      | .error err => .error err
      | .ok cs => .ok (c :: cs)

/-- Source lines 307-310: the outer loop over enumerated metrics_of_interest,
propagating the first raised error. -/
def trainCurvesOuter (i : Nat) (experiments : List Experiment) :
    List String → Except PyError (List TrainCurve)
  | [] => .ok []
  | m :: rest =>
    match trainCurvesInner i m 0 experiments with
    | .error err => .error err
    | .ok cs =>
      match trainCurvesOuter (i + 1) experiments rest with
      | .error err => .error err
      | .ok cs2 => .ok (cs ++ cs2)

/-- Source lines 307-310: all training curves of the upper subplot, in plot order. -/
def trainCurves (metrics_of_interest : List String) (experiments : List Experiment) :
    Except PyError (List TrainCurve) :=
  trainCurvesOuter 0 experiments metrics_of_interest

/-- Source lines 314-316: the legend entries for the enumerated metrics of
interest: the metric label with its marker, drawn in black; indexing the fixed
marker list can raise an IndexError. -/
def legendMetricEntries (i : Nat) : List String → Except PyError (List LegendEntry)
  | [] => .ok []
  | m :: rest =>
    match markers[i]? with
    | none => .error (PyError.indexError i)
    | some mk =>
      match legendMetricEntries (i + 1) rest with
      | .error err => .error err
      | .ok es => .ok ({ label := m, marker := some mk, color := some "k" } :: es)

/-- Source lines 317-318: the legend entries for the enumerated experiments: the
run name with the color of its index (the color list has one entry per run, so
the index is always in range). -/
def legendRunEntries (i : Nat) : List Experiment → List LegendEntry
  | [] => []
  | e :: rest =>
    { label := e.name, marker := none, color := some (colorOfRun i) } ::
      legendRunEntries (i + 1) rest

/-- Source lines 313-318: the custom legend, metric entries first, then run
entries. -/
def legendEntries (metrics_of_interest : List String) (experiments : List Experiment) :
    Except PyError (List LegendEntry) :=
  match legendMetricEntries 0 metrics_of_interest with
  | .error err => .error err
  | .ok ms => .ok (ms ++ legendRunEntries 0 experiments)

/-- Source line 332: one held-out score per metric of interest read from the
evaluation result dict (a KeyError when absent). -/
def lookupScore (tm : List (String × Rat)) (metric : String) : Except PyError Rat :=
  match List.lookup metric tm with
  | none => .error (PyError.keyError metric)
  | some v => .ok v

/-- Source lines 330-332: the body of the bar loop for one experiment: evaluate it
on the held-out data, then read one score per metric of interest. -/
def barForRun (settings : ExperimentSettings) (metrics_of_interest : List String)
    (test_dataset : Dataset) (test_labels : List Rat) (e : Experiment) :
    Except PyError (String × List Rat) :=
  match evaluate_experiment settings e test_dataset test_labels with
  | .error err => .error err
  | .ok tm =>
    match mapExcept (lookupScore tm) metrics_of_interest with
    | .error err => .error err
    | .ok vals => .ok (e.name, vals)

/-- Source lines 329-332: the bar loop over experiments. The second component
counts the evaluate_experiment invocations performed before the loop returned or
raised (each entered iteration invokes the Evaluator exactly once, as its first
action). -/
def barsFor (settings : ExperimentSettings) (metrics_of_interest : List String)
    (test_dataset : Dataset) (test_labels : List Rat) :
    List Experiment → Except PyError (List (String × List Rat)) × Nat
  | [] => (.ok [], 0)
  | e :: rest =>
    match barForRun settings metrics_of_interest test_dataset test_labels e with
    | .error err => (.error err, 1)
    | .ok b =>
      match barsFor settings metrics_of_interest test_dataset test_labels rest with
      | (.error err, n) => (.error err, n + 1)
      | (.ok bs, n) => (.ok (b :: bs), n + 1)

/-- Source lines 289-339: compare_experiment. The first parameter is the
module-level settings binding that evaluate_experiment closes over. Phases in
source order: the eager precondition check over metrics_of_interest and
experiments (lines 294-297), the train-curve plot loop (lines 307-310), the
custom legend (lines 313-318), and the bar loop with one Evaluator invocation
per experiment (lines 329-332). The second component of the result counts the
Evaluator invocations performed by the call. -/
def compare_experiment (settings : ExperimentSettings) (experiments : List Experiment)
    (metrics_of_interest : List String) (test_dataset : Dataset)
    (test_labels : List Rat) : Except PyError CompareOutput × Nat :=
  match findMissing metrics_of_interest experiments with
  | some (metric, n) => (.error (.valueError (unavailableMetricMessage metric n)), 0)
  | none =>
    match trainCurves metrics_of_interest experiments with
    | .error err => (.error err, 0)
    | .ok curves =>
      match legendEntries metrics_of_interest experiments with
      | .error err => (.error err, 0)
      | .ok leg =>
        match barsFor settings metrics_of_interest test_dataset test_labels experiments with
        | (.error err, n) => (.error err, n)
        | (.ok bars, n) =>
          (.ok { trainCurves := curves, legend := leg, barGroups := bars }, n)

/-- A model handle whose abstract numeric behavior is constantly zero, used for
concrete instances. -/
def zeroModel (metricNames : List String) : Model :=
  { inputNames := []
    metricNames := metricNames
    fitValue := fun _ _ _ _ _ => 0
    evalValue := fun _ _ _ _ => 0 }

/-- Source lines 224-230: the module-level settings value (the one the body of
evaluate_experiment closes over). -/
def moduleSettings : ExperimentSettings :=
  { learning_rate := 1/1000
    number_epochs := 60
    batch_size := 100
    classification_threshold := 7/20
    input_features := ["Eccentricity", "Major_Axis_Length", "Area"] }

/-- A model handle whose single metric reports the batch size it was evaluated
with, exposing which configuration the batch size was read from. -/
def batchProbeModel : Model :=
  { inputNames := ["f1"]
    metricNames := ["batch_probe"]
    fitValue := fun _ _ _ _ _ => 0
    evalValue := fun _ _ _ b => (b : Rat) }

/-- A settings value whose batch size (7) differs from the module-level one (100). -/
def probeSettings : ExperimentSettings :=
  { learning_rate := 1/1000
    number_epochs := 3
    batch_size := 7
    classification_threshold := 1/2
    input_features := ["f1"] }

/-- A trained run owning probeSettings and the batch-probing model handle. -/
def probeExperiment : Experiment :=
  { name := "probe"
    settings := probeSettings
    model := batchProbeModel
    epochs := [0, 1, 2]
    metrics_history := [("batch_probe", [0, 0, 0])] }

/-- A held-out dataset with the probe feature column. -/
def probeData : Dataset := [("f1", [1, 2, 3])]

/-- Held-out labels for the probe dataset. -/
def probeLabels : List Rat := [0, 1, 0]

/-- A concrete trained run with two recorded metrics, for witnesses. -/
def demoExperiment : Experiment :=
  { name := "baseline"
    settings := probeSettings
    model := zeroModel ["accuracy", "precision"]
    epochs := [0, 1]
    metrics_history := [("accuracy", [1/2, 3/4]), ("precision", [1/4, 2/3])] }

/-- A concrete trained run recording only the loss, so that accuracy is missing
from its history, for witnesses. -/
def demoRunA : Experiment :=
  { name := "run_a"
    settings := probeSettings
    model := zeroModel ["loss"]
    epochs := [0]
    metrics_history := [("loss", [1])] }

/-- A concrete trained run recording seven metrics, for the over-long
metrics_of_interest witness. -/
def demoSevenMetrics : Experiment :=
  { name := "seven"
    settings := probeSettings
    model := zeroModel ["m1", "m2", "m3", "m4", "m5", "m6", "m7"]
    epochs := [0]
    metrics_history :=
      [("m1", [1]), ("m2", [1]), ("m3", [1]), ("m4", [1]), ("m5", [1]),
       ("m6", [1]), ("m7", [1])] }

/-- A concrete trained run with one recorded metric and one feature, for the
determinism witness. -/
def demoRunB : Experiment :=
  { name := "run_b"
    settings := probeSettings
    model := zeroModel ["accuracy"]
    epochs := [0]
    metrics_history := [("accuracy", [1])] }

/-- The comparison data assembled for demoRunB alone with accuracy as the single
metric of interest. -/
def demoOutputB : CompareOutput :=
  { trainCurves := [{ metricIndex := 0, runIndex := 0, marker := ".", color := "C0",
                      epochs := [0], values := [1] }]
    legend := [{ label := "accuracy", marker := some ".", color := some "k" },
               { label := "run_b", marker := none, color := some "C0" }]
    barGroups := [("run_b", [0])] }

/-- A valid settings value with integer-valued rationals, for the training
witness. -/
def demoTrainSettings : ExperimentSettings :=
  { learning_rate := 1
    number_epochs := 3
    batch_size := 10
    classification_threshold := 1
    input_features := ["f1"] }

/-- A training dataset with the single configured feature column. -/
def demoTrainData : Dataset := [("f1", [0, 1, 0])]

/-- Training labels for the witness dataset. -/
def demoTrainLabels : List Rat := [0, 1, 0]

/-- A first held-out dataset for the determinism witness. -/
def demoData1 : Dataset := [("f1", [1])]

/-- A second, different held-out dataset for the determinism witness. -/
def demoData2 : Dataset := [("f1", [2, 3])]

/-- Held-out labels matching demoData1. -/
def demoLabels1 : List Rat := [0]

/-- Held-out labels matching demoData2. -/
def demoLabels2 : List Rat := [1, 0]

/-- List of seven metric names, for the over-long metrics witness. -/
def sevenMetricNames : List String :=
  ["m1", "m2", "m3", "m4", "m5", "m6", "m7"]

/-- Associativity of string concatenation, used to rearrange message strings. -/
theorem string_append_assoc (a b c : String) : a ++ b ++ c = a ++ (b ++ c) := by
  obtain ⟨as⟩ := a
  obtain ⟨bs⟩ := b
  obtain ⟨cs⟩ := c
  show String.mk (as ++ bs ++ cs) = String.mk (as ++ (bs ++ cs))
  rw [List.append_assoc]

/-- The empty string is a left identity for concatenation. -/
theorem string_empty_append (a : String) : "" ++ a = a := by
  obtain ⟨as⟩ := a
  show String.mk ([] ++ as) = String.mk as
  rw [List.nil_append]

/-- The empty string is a right identity for concatenation. -/
theorem string_append_empty (a : String) : a ++ "" = a := by
  obtain ⟨as⟩ := a
  show String.mk (as ++ []) = String.mk as
  rw [List.append_nil]

/-- Every member of a joined name list is a substring of the join. -/
theorem commaJoin_mem {c : String} :
    ∀ {cols : List String}, c ∈ cols → ∃ a b : String, commaJoin cols = a ++ (c ++ b) := by
  intro cols
  induction cols with
  | nil => intro h; simp at h
  | cons x rest ih =>
    intro h
    cases rest with
    | nil =>
      have hx : c = x := by simpa using h
      subst hx
      exact ⟨"", "", by simp [commaJoin, string_append_empty, string_empty_append]⟩
    | cons y t =>
      rcases List.mem_cons.mp h with h1 | h2
      · subst h1
        refine ⟨"", ", " ++ commaJoin (y :: t), ?_⟩
        simp only [commaJoin]
        rw [string_empty_append, string_append_assoc]
      · obtain ⟨a, b, hab⟩ := ih h2
        refine ⟨x ++ ", " ++ a, b, ?_⟩
        simp only [commaJoin]
        rw [hab, string_append_assoc (x ++ ", ") a (c ++ b)]

/-- The unknown-metric message contains the requested metric name. -/
theorem unknownMetricMessage_mentions_metric (m : String) (cols : List String) :
    mentions (unknownMetricMessage m cols) m :=
  ⟨"Unknown metric ", ": available metrics are [" ++ commaJoin cols ++ "]", by
    simp only [unknownMetricMessage, string_append_assoc]⟩

/-- The unknown-metric message contains every listed column name. -/
theorem unknownMetricMessage_mentions_col (m c : String) {cols : List String}
    (hc : c ∈ cols) : mentions (unknownMetricMessage m cols) c := by
  obtain ⟨a, b, hab⟩ := commaJoin_mem hc
  refine ⟨"Unknown metric " ++ m ++ ": available metrics are [" ++ a, b ++ "]", ?_⟩
  simp only [unknownMetricMessage, hab, string_append_assoc]

/-- The unavailable-metric message of the Comparator check contains the metric
name. -/
theorem unavailableMetricMessage_mentions_metric (m n : String) :
    mentions (unavailableMetricMessage m n) m :=
  ⟨"Metric ", " not available for experiment " ++ n, by
    simp only [unavailableMetricMessage, string_append_assoc]⟩

/-- The unavailable-metric message of the Comparator check contains the
experiment name. -/
theorem unavailableMetricMessage_mentions_name (m n : String) :
    mentions (unavailableMetricMessage m n) n :=
  ⟨"Metric " ++ m ++ " not available for experiment ", "", by
    simp only [unavailableMetricMessage, string_append_assoc, string_append_empty]⟩

/-- Sequential mapping succeeds when every element succeeds. -/
theorem mapExcept_ok_of_forall {α β ε : Type} {f : α → Except ε β} :
    ∀ {l : List α}, (∀ x ∈ l, ∃ y, f x = .ok y) → ∃ ys, mapExcept f l = .ok ys := by
  intro l
  induction l with
  | nil => intro _; exact ⟨[], rfl⟩
  | cons x xs ih =>
    intro h
    obtain ⟨y, hy⟩ := h x (List.mem_cons_self x xs)
    obtain ⟨ys, hys⟩ := ih fun z hz => h z (List.mem_cons_of_mem x hz)
    exact ⟨y :: ys, by simp [mapExcept, hy, hys]⟩

/-- Building the features dict succeeds when every configured feature column is
present in the dataset. -/
theorem extractFeatures_ok {fs : List String} {d : Dataset}
    (h : ∀ f ∈ fs, (List.lookup f d).isSome) :
    ∃ cols, extractFeatures fs d = .ok cols := by
  unfold extractFeatures
  apply mapExcept_ok_of_forall
  intro x hx
  obtain ⟨col, hcol⟩ := Option.isSome_iff_exists.mp (h x hx)
  exact ⟨(x, col), by simp [hcol]⟩

/-- C4: for every TrainedRun and every metric name that is a key of its
metrics_history with a recorded last value, get_final_metric_value returns
exactly that last per-epoch value (the element at index -1). -/
theorem get_final_metric_value_last (e : Experiment) (metric_name : String)
    (col : List Rat) (v : Rat)
    (hcol : List.lookup metric_name e.metrics_history = some col)
    (hlast : col.getLast? = some v) :
    e.get_final_metric_value metric_name = .ok v := by
  simp only [Experiment.get_final_metric_value, hcol, hlast]

/-- Witness for C4: on the concrete run demoExperiment, the final accuracy value
is the last element of the accuracy column. -/
theorem get_final_metric_value_last_witness :
    demoExperiment.get_final_metric_value "accuracy" = .ok (3/4) :=
  get_final_metric_value_last demoExperiment "accuracy" [1/2, 3/4] (3/4) rfl rfl

/-- C5: for every TrainedRun and every metric name absent from its
metrics_history, get_final_metric_value fails with the ValueError whose message
mentions the requested metric name and contains every known metric name of the
run. -/
theorem get_final_metric_value_unknown (e : Experiment) (metric_name : String)
    (h : List.lookup metric_name e.metrics_history = none) :
    e.get_final_metric_value metric_name =
      .error (.valueError (unknownMetricMessage metric_name (columnNames e.metrics_history))) ∧
    mentions (unknownMetricMessage metric_name (columnNames e.metrics_history)) metric_name ∧
    ∀ c ∈ columnNames e.metrics_history,
      mentions (unknownMetricMessage metric_name (columnNames e.metrics_history)) c := by
  refine ⟨?_, unknownMetricMessage_mentions_metric _ _, fun c hc =>
    unknownMetricMessage_mentions_col _ _ hc⟩
  unfold Experiment.get_final_metric_value
  rw [h]

/-- Witness for C5: requesting the metric nonexistent on the concrete run
demoExperiment raises the ValueError whose message mentions nonexistent and
contains both known metric names. -/
theorem get_final_metric_value_unknown_witness :
    demoExperiment.get_final_metric_value "nonexistent" =
      .error (.valueError (unknownMetricMessage "nonexistent"
        (columnNames demoExperiment.metrics_history))) ∧
    mentions (unknownMetricMessage "nonexistent"
      (columnNames demoExperiment.metrics_history)) "nonexistent" ∧
    ∀ c ∈ columnNames demoExperiment.metrics_history,
      mentions (unknownMetricMessage "nonexistent"
        (columnNames demoExperiment.metrics_history)) c :=
  get_final_metric_value_unknown demoExperiment "nonexistent" rfl

/-- C8: evaluate_experiment is idempotent and side-effect free: the call leaves
the run and the module-level settings unchanged, and a second call on the
post-state with the same held-out data yields the identical scores. -/
theorem evaluate_experiment_idempotent (settings : ExperimentSettings)
    (e : Experiment) (d : Dataset) (l : List Rat) :
    (evaluateStep settings e d l).2.1 = e ∧
    (evaluateStep settings e d l).2.2 = settings ∧
    (evaluateStep (evaluateStep settings e d l).2.2
      (evaluateStep settings e d l).2.1 d l).1 = (evaluateStep settings e d l).1 ∧
    (evaluateStep (evaluateStep settings e d l).2.2
      (evaluateStep settings e d l).2.1 d l).2.1 = e :=
  ⟨rfl, rfl, rfl, rfl⟩

/-- C2 (code bug): evaluate_experiment reads the batch size from the module-level
settings captured by the closure, not from the settings owned by the run being
evaluated. The probe model reports the batch size it receives: evaluating
probeExperiment (whose own batch size is 7) under the module-level batch size 100
reports 100, not 7. -/
theorem evaluate_experiment_uses_module_batch_size :
    moduleSettings.batch_size = 100 ∧
    probeExperiment.settings.batch_size = 7 ∧
    evaluate_experiment moduleSettings probeExperiment probeData probeLabels =
      .ok [("batch_probe", 100)] ∧
    evaluate_experiment moduleSettings probeExperiment probeData probeLabels ≠
      .ok [("batch_probe", 7)] := by
  refine ⟨rfl, rfl, rfl, fun h => ?_⟩
  rw [show evaluate_experiment moduleSettings probeExperiment probeData probeLabels =
    .ok [("batch_probe", 100)] from rfl] at h
  simp only [Except.ok.injEq, List.cons.injEq, Prod.mk.injEq] at h
  exact absurd h.1.2 (by norm_num)

/-- C6 (counterexample): assigning to a field of an existing Settings value does
not fail: on the concrete module-level settings, assignment to learning_rate
succeeds and yields the record with that field changed. -/
theorem settings_assignment_succeeds :
    moduleSettings.setAttr (SettingsField.learning_rate 2) =
      .ok { moduleSettings with learning_rate := 2 } ∧
    ({ moduleSettings with learning_rate := 2 } : ExperimentSettings).learning_rate = 2 ∧
    moduleSettings.learning_rate ≠ 2 := by
  refine ⟨rfl, rfl, ?_⟩
  show (1/1000 : Rat) ≠ 2
  norm_num

/-- C6 (amended): ExperimentSettings is a plain, non-frozen dataclass: an attempt
to assign to any of its five fields on an existing value succeeds and returns the
value with exactly that field updated. -/
theorem settings_assignment_mutates (s : ExperimentSettings) (v1 : Rat) (v2 v3 : Int)
    (v4 : Rat) (v5 : List String) :
    s.setAttr (SettingsField.learning_rate v1) = .ok { s with learning_rate := v1 } ∧
    s.setAttr (SettingsField.number_epochs v2) = .ok { s with number_epochs := v2 } ∧
    s.setAttr (SettingsField.batch_size v3) = .ok { s with batch_size := v3 } ∧
    s.setAttr (SettingsField.classification_threshold v4) =
      .ok { s with classification_threshold := v4 } ∧
    s.setAttr (SettingsField.input_features v5) = .ok { s with input_features := v5 } :=
  ⟨rfl, rfl, rfl, rfl, rfl⟩

/-- C7 (counterexample): constructing Settings with an empty feature list, a zero
epoch count and a negative batch size does not fail with ConfigError: the
generated constructor accepts the invalid values. -/
theorem mk_settings_accepts_invalid :
    mkExperimentSettings (1/1000) 0 (-5) (1/2) [] =
      .ok { learning_rate := 1/1000, number_epochs := 0, batch_size := -5,
            classification_threshold := 1/2, input_features := [] } ∧
    ¬ validSettings { learning_rate := 1/1000, number_epochs := 0, batch_size := -5,
                      classification_threshold := 1/2, input_features := [] } := by
  refine ⟨rfl, fun h => ?_⟩
  unfold validSettings at h
  exact h.2.2.2.2.2 rfl

/-- C7 (amended): Settings construction performs no validation and never fails:
for every argument tuple, including invalid ones, the constructor returns the
record of exactly the given field values and raises no ConfigError. -/
theorem mk_settings_never_fails (lr : Rat) (ne bs : Int) (ct : Rat) (fs : List String) :
    mkExperimentSettings lr ne bs ct fs =
      .ok { learning_rate := lr, number_epochs := ne, batch_size := bs,
            classification_threshold := ct, input_features := fs } :=
  rfl

/-- C1: for every valid Settings and every dataset containing a column for each
configured input feature, train_model returns a TrainedRun whose epochs sequence
is exactly the 0-based indices below settings.number_epochs (so of that length),
and whose metrics_history has exactly the instrumented metric names as keys,
each mapped to a per-epoch sequence of that same length. -/
theorem train_model_shape (experiment_name : String) (model : Model)
    (dataset : Dataset) (labels : List Rat) (s : ExperimentSettings)
    (hv : validSettings s)
    (hd : ∀ f ∈ s.input_features, (List.lookup f dataset).isSome) :
    ∃ run : Experiment,
      train_model experiment_name model dataset labels s = .ok run ∧
      run.epochs = List.range s.number_epochs.toNat ∧
      (run.epochs.length : Int) = s.number_epochs ∧
      columnNames run.metrics_history = model.metricNames ∧
      ∀ p ∈ run.metrics_history, (p.2.length : Int) = s.number_epochs := by
  obtain ⟨feats, hfeats⟩ := extractFeatures_ok hd
  have hnn : (s.number_epochs.toNat : Int) = s.number_epochs :=
    Int.toNat_of_nonneg (le_of_lt hv.2.1)
  refine ⟨{ name := experiment_name
            settings := s
            model := model
            epochs := List.range s.number_epochs.toNat
            metrics_history := model.metricNames.map fun nm =>
              (nm, (List.range s.number_epochs.toNat).map fun ep =>
                model.fitValue nm ep feats labels s.batch_size) },
          ?_, rfl, ?_, ?_, ?_⟩
  · simp only [train_model, hfeats, Model.fit]
  · simpa using hnn
  · simp only [columnNames, List.map_map]
    have hid : (Prod.fst ∘ fun nm : String =>
        (nm, List.map (fun ep => model.fitValue nm ep feats labels s.batch_size)
          (List.range s.number_epochs.toNat))) = id := by
      funext nm; rfl
    rw [hid, List.map_id]
  · intro p hp
    simp only [List.mem_map] at hp
    obtain ⟨nm, -, rfl⟩ := hp
    simpa using hnn

/-- Witness for C1: training on the concrete valid settings and dataset yields a
run with epochs of the configured length and a fully populated history. -/
theorem train_model_shape_witness :
    validSettings demoTrainSettings ∧
    ∃ run : Experiment,
      train_model "baseline" (zeroModel ["accuracy"]) demoTrainData
        demoTrainLabels demoTrainSettings = .ok run ∧
      run.epochs = List.range demoTrainSettings.number_epochs.toNat ∧
      (run.epochs.length : Int) = demoTrainSettings.number_epochs ∧
      columnNames run.metrics_history = (zeroModel ["accuracy"]).metricNames ∧
      ∀ p ∈ run.metrics_history, (p.2.length : Int) = demoTrainSettings.number_epochs :=
  ⟨by unfold validSettings demoTrainSettings; norm_num,
   train_model_shape "baseline" (zeroModel ["accuracy"]) demoTrainData
     demoTrainLabels demoTrainSettings
     (by unfold validSettings demoTrainSettings; norm_num)
     (by intro f hf; simp only [demoTrainSettings] at hf; simp at hf; subst hf; rfl)⟩

/-- Inversion of the inner precondition loop: a reported name belongs to an
experiment of the list whose history lacks the metric. -/
theorem findMissingIn_eq_some {metric : String} :
    ∀ {es : List Experiment} {n : String}, findMissingIn metric es = some n →
      ∃ e ∈ es, e.name = n ∧ List.lookup metric e.metrics_history = none := by
  intro es
  induction es with
  | nil => intro n h; simp [findMissingIn] at h
  | cons e rest ih =>
    intro n h
    by_cases hm : (List.lookup metric e.metrics_history).isNone
    · refine ⟨e, List.mem_cons_self e rest, ?_, Option.isNone_iff_eq_none.mp hm⟩
      have : some e.name = some n := by simpa [findMissingIn, hm] using h
      exact Option.some.inj this
    · simp only [findMissingIn, hm, if_false] at h
      obtain ⟨e2, he2, hn, hl⟩ := ih h
      exact ⟨e2, List.mem_cons_of_mem e he2, hn, hl⟩

/-- The inner precondition loop reports some name as soon as one experiment of
the list lacks the metric. -/
theorem findMissingIn_isSome_of {metric : String} {e : Experiment} :
    ∀ {es : List Experiment}, e ∈ es →
      List.lookup metric e.metrics_history = none →
      ∃ n, findMissingIn metric es = some n := by
  intro es
  induction es with
  | nil => intro h; simp at h
  | cons x rest ih =>
    intro he hmiss
    by_cases hx : (List.lookup metric x.metrics_history).isNone
    · exact ⟨x.name, by simp [findMissingIn, hx]⟩
    · rcases List.mem_cons.mp he with h1 | h2
      · subst h1; exact absurd (Option.isNone_iff_eq_none.mpr hmiss) hx
      · obtain ⟨n, hn⟩ := ih h2 hmiss
        exact ⟨n, by simp [findMissingIn, hx, hn]⟩

/-- Inversion of the precondition check: a reported (metric, name) pair is an
offending pair: the metric is among those of interest and some listed experiment
of that name lacks it. -/
theorem findMissing_eq_some :
    ∀ {ms : List String} {es : List Experiment} {m n : String},
      findMissing ms es = some (m, n) →
      m ∈ ms ∧ ∃ e ∈ es, e.name = n ∧ List.lookup m e.metrics_history = none := by
  intro ms
  induction ms with
  | nil => intro es m n h; simp [findMissing] at h
  | cons m0 rest ih =>
    intro es m n h
    cases hin : findMissingIn m0 es with
    | some n0 =>
      simp only [findMissing, hin] at h
      obtain ⟨hm, hn⟩ := Prod.mk.injEq .. ▸ (Option.some.inj h)
      subst hm; subst hn
      obtain ⟨e, he, hname, hl⟩ := findMissingIn_eq_some hin
      exact ⟨List.mem_cons_self m0 rest, e, he, hname, hl⟩
    | none =>
      simp only [findMissing, hin] at h
      obtain ⟨hm, rest2⟩ := ih h
      exact ⟨List.mem_cons_of_mem m0 hm, rest2⟩

/-- The precondition check reports some offending pair as soon as one metric of
interest is missing from one listed experiment. -/
theorem findMissing_isSome_of {m : String} {e : Experiment} {es : List Experiment} :
    ∀ {ms : List String}, m ∈ ms → e ∈ es →
      List.lookup m e.metrics_history = none →
      ∃ p, findMissing ms es = some p := by
  intro ms
  induction ms with
  | nil => intro h; simp at h
  | cons m0 rest ih =>
    intro hm he hmiss
    cases hin : findMissingIn m0 es with
    | some n0 => exact ⟨(m0, n0), by simp [findMissing, hin]⟩
    | none =>
      rcases List.mem_cons.mp hm with h1 | h2
      · subst h1
        obtain ⟨n, hn⟩ := findMissingIn_isSome_of he hmiss
        rw [hin] at hn
        exact absurd hn (by simp)
      · obtain ⟨p, hp⟩ := ih h2 he hmiss
        exact ⟨p, by simp [findMissing, hin, hp]⟩

/-- C3: whenever some metric of interest is missing from some listed run,
compare_experiment fails with the ValueError naming an offending run and metric
(both contained in the message), and performs zero Evaluator invocations: the
check fires eagerly, before any plotting or computation. -/
theorem compare_missing_fails_fast (settings : ExperimentSettings)
    (experiments : List Experiment) (metrics_of_interest : List String)
    (test_dataset : Dataset) (test_labels : List Rat) (m : String) (e : Experiment)
    (hm : m ∈ metrics_of_interest) (he : e ∈ experiments)
    (hmiss : List.lookup m e.metrics_history = none) :
    ∃ m2 e2, m2 ∈ metrics_of_interest ∧ e2 ∈ experiments ∧
      List.lookup m2 e2.metrics_history = none ∧
      compare_experiment settings experiments metrics_of_interest test_dataset
        test_labels =
        (.error (.valueError (unavailableMetricMessage m2 e2.name)), 0) ∧
      mentions (unavailableMetricMessage m2 e2.name) m2 ∧
      mentions (unavailableMetricMessage m2 e2.name) e2.name := by
  obtain ⟨⟨m2, n2⟩, hfm⟩ := findMissing_isSome_of hm he hmiss
  obtain ⟨hm2, e2, he2, hname, hmiss2⟩ := findMissing_eq_some hfm
  subst hname
  refine ⟨m2, e2, hm2, he2, hmiss2, ?_,
    unavailableMetricMessage_mentions_metric _ _,
    unavailableMetricMessage_mentions_name _ _⟩
  simp only [compare_experiment, hfm]

/-- Witness for C3: comparing the loss-only run demoRunA with accuracy requested
fails with the ValueError naming run_a and accuracy, with zero Evaluator
invocations. -/
theorem compare_missing_fails_fast_witness :
    ∃ m2 e2, m2 ∈ ["accuracy"] ∧ e2 ∈ [demoRunA] ∧
      List.lookup m2 e2.metrics_history = none ∧
      compare_experiment moduleSettings [demoRunA] ["accuracy"] probeData
        probeLabels =
        (.error (.valueError (unavailableMetricMessage m2 e2.name)), 0) ∧
      mentions (unavailableMetricMessage m2 e2.name) m2 ∧
      mentions (unavailableMetricMessage m2 e2.name) e2.name :=
  compare_missing_fails_fast moduleSettings [demoRunA] ["accuracy"] probeData
    probeLabels "accuracy" demoRunA (by simp) (by simp) rfl

/-- Every curve produced by the inner plot loop carries the color of its run
index and the marker of its metric index. -/
theorem trainCurvesInner_mem {i : Nat} {metric : String} :
    ∀ {es : List Experiment} {j : Nat} {cs : List TrainCurve},
      trainCurvesInner i metric j es = .ok cs →
      ∀ c ∈ cs, c.color = colorOfRun c.runIndex ∧
        markers[c.metricIndex]? = some c.marker := by
  intro es
  induction es with
  | nil =>
    intro j cs h c hc
    simp only [trainCurvesInner] at h
    obtain rfl := Except.ok.inj h
    simp at hc
  | cons e rest ih =>
    intro j cs h c hc
    simp only [trainCurvesInner] at h
    cases hta : trainCurveAt i j metric e with
    | error err => rw [hta] at h; simp at h
    | ok c0 =>
      rw [hta] at h
      cases hrec : trainCurvesInner i metric (j + 1) rest with
      | error err => rw [hrec] at h; simp at h
      | ok cs2 =>
        rw [hrec] at h
        obtain rfl := Except.ok.inj h
        rcases List.mem_cons.mp hc with h1 | h2
        · subst h1
          simp only [trainCurveAt] at hta
          cases hlk : List.lookup metric e.metrics_history with
          | none => rw [hlk] at hta; simp at hta
          | some vals =>
            rw [hlk] at hta
            cases hmk : markers[i]? with
            | none => rw [hmk] at hta; simp at hta
            | some mk =>
              rw [hmk] at hta
              obtain rfl := Except.ok.inj hta
              exact ⟨rfl, hmk⟩
        · exact ih hrec c h2

/-- Every curve produced by the outer plot loop carries the color of its run
index and the marker of its metric index. -/
theorem trainCurvesOuter_mem {es : List Experiment} :
    ∀ {ms : List String} {i : Nat} {cs : List TrainCurve},
      trainCurvesOuter i es ms = .ok cs →
      ∀ c ∈ cs, c.color = colorOfRun c.runIndex ∧
        markers[c.metricIndex]? = some c.marker := by
  intro ms
  induction ms with
  | nil =>
    intro i cs h c hc
    simp only [trainCurvesOuter] at h
    obtain rfl := Except.ok.inj h
    simp at hc
  | cons m rest ih =>
    intro i cs h c hc
    simp only [trainCurvesOuter] at h
    cases hin : trainCurvesInner i m 0 es with
    | error err => rw [hin] at h; simp at h
    | ok cs1 =>
      rw [hin] at h
      cases hrec : trainCurvesOuter (i + 1) es rest with
      | error err => rw [hrec] at h; simp at h
      | ok cs2 =>
        rw [hrec] at h
        obtain rfl := Except.ok.inj h
        rcases List.mem_append.mp hc with h1 | h2
        · exact trainCurvesInner_mem hin c h1
        · exact ih hrec c h2

/-- The metric part of the legend has one entry per metric of interest. -/
theorem legendMetricEntries_length :
    ∀ {ms : List String} {i : Nat} {les : List LegendEntry},
      legendMetricEntries i ms = .ok les → les.length = ms.length := by
  intro ms
  induction ms with
  | nil =>
    intro i les h
    simp only [legendMetricEntries] at h
    obtain rfl := Except.ok.inj h
    rfl
  | cons m rest ih =>
    intro i les h
    simp only [legendMetricEntries] at h
    cases hmk : markers[i]? with
    | none => rw [hmk] at h; simp at h
    | some mk =>
      rw [hmk] at h
      cases hrec : legendMetricEntries (i + 1) rest with
      | error err => rw [hrec] at h; simp at h
      | ok les2 =>
        rw [hrec] at h
        obtain rfl := Except.ok.inj h
        simp [ih hrec]

/-- The k-th metric legend entry labels the k-th metric of interest with the
marker at the shifted index. -/
theorem legendMetricEntries_get :
    ∀ {ms : List String} {i : Nat} {les : List LegendEntry},
      legendMetricEntries i ms = .ok les →
      ∀ k m, ms[k]? = some m →
        ∃ mk, markers[i + k]? = some mk ∧
          les[k]? = some (⟨m, some mk, some "k"⟩ : LegendEntry) := by
  intro ms
  induction ms with
  | nil => intro i les h k m hk; simp at hk
  | cons m0 rest ih =>
    intro i les h k m hk
    simp only [legendMetricEntries] at h
    cases hmk : markers[i]? with
    | none => rw [hmk] at h; simp at h
    | some mk0 =>
      rw [hmk] at h
      cases hrec : legendMetricEntries (i + 1) rest with
      | error err => rw [hrec] at h; simp at h
      | ok les2 =>
        rw [hrec] at h
        obtain rfl := Except.ok.inj h
        cases k with
        | zero =>
          obtain rfl : m0 = m := by simpa using hk
          exact ⟨mk0, by simpa using hmk, by simp⟩
        | succ k2 =>
          obtain ⟨mk2, hmk2, hles⟩ := ih hrec k2 m (by simpa using hk)
          refine ⟨mk2, ?_, by simpa using hles⟩
          rw [show i + (k2 + 1) = i + 1 + k2 by omega]
          exact hmk2

/-- The k-th run legend entry labels the k-th run with the color of its shifted
index. -/
theorem legendRunEntries_get :
    ∀ {es : List Experiment} {i k : Nat} {e : Experiment},
      es[k]? = some e →
      (legendRunEntries i es)[k]? =
        some (⟨e.name, none, some (colorOfRun (i + k))⟩ : LegendEntry) := by
  intro es
  induction es with
  | nil => intro i k e h; simp at h
  | cons e0 rest ih =>
    intro i k e h
    cases k with
    | zero =>
      obtain rfl : e0 = e := by simpa using h
      simp [legendRunEntries]
    | succ k2 =>
      have hrec := ih (i := i + 1) (k := k2) (e := e) (by simpa using h)
      simp only [legendRunEntries, List.getElem?_cons_succ]
      rw [show i + (k2 + 1) = i + 1 + k2 by omega]
      exact hrec

/-- Characterization of the assembled legend: the first block holds one entry
per metric of interest, labeled with the marker of the metric index drawn in
black; after it come the run entries, labeled with the color of the run index. -/
theorem legendEntries_get {ms : List String} {es : List Experiment}
    {leg : List LegendEntry} (h : legendEntries ms es = .ok leg) :
    (∀ (k : Nat) (m : String), ms[k]? = some m → ∃ mk, markers[k]? = some mk ∧
      leg[k]? = some (⟨m, some mk, some "k"⟩ : LegendEntry)) ∧
    (∀ (k : Nat) (e : Experiment), es[k]? = some e →
      leg[ms.length + k]? =
        some (⟨e.name, none, some (colorOfRun k)⟩ : LegendEntry)) := by
  unfold legendEntries at h
  cases hme : legendMetricEntries 0 ms with
  | error err => rw [hme] at h; simp at h
  | ok mes =>
    rw [hme] at h
    obtain rfl := Except.ok.inj h
    have hlen := legendMetricEntries_length hme
    constructor
    · intro k m hk
      obtain ⟨mk, hmk, hget⟩ := legendMetricEntries_get hme k m hk
      have hklt : k < mes.length := by
        rw [hlen]
        by_contra hge
        rw [List.getElem?_eq_none (by omega)] at hk
        exact Option.noConfusion hk
      refine ⟨mk, by simpa using hmk, ?_⟩
      rw [List.getElem?_append_left hklt]
      exact hget
    · intro k e hk
      have hrun := legendRunEntries_get (i := 0) hk
      rw [List.getElem?_append_right (by omega : mes.length ≤ ms.length + k)]
      rw [hlen]
      simpa using hrun

/-- Inversion of a successful compare_experiment call: its curves and legend are
the ones assembled from the run list and metric list alone. -/
theorem compare_ok_inv {settings : ExperimentSettings} {es : List Experiment}
    {ms : List String} {d : Dataset} {l : List Rat} {o : CompareOutput} {n : Nat}
    (h : compare_experiment settings es ms d l = (.ok o, n)) :
    ∃ curves leg, trainCurves ms es = .ok curves ∧ legendEntries ms es = .ok leg ∧
      o.trainCurves = curves ∧ o.legend = leg := by
  unfold compare_experiment at h
  cases hfm : findMissing ms es with
  | some p =>
    obtain ⟨pm, pn⟩ := p
    rw [hfm] at h
    simp at h
  | none =>
    rw [hfm] at h
    cases htc : trainCurves ms es with
    | error err => rw [htc] at h; simp at h
    | ok curves =>
      rw [htc] at h
      cases hle : legendEntries ms es with
      | error err => rw [hle] at h; simp at h
      | ok leg =>
        rw [hle] at h
        rcases hbf : barsFor settings ms d l es with ⟨br, bn⟩
        rw [hbf] at h
        cases br with
        | error err => simp at h
        | ok bars =>
          simp only [Prod.mk.injEq, Except.ok.injEq] at h
          exact ⟨curves, leg, rfl, rfl, by rw [← h.1], by rw [← h.1]⟩

/-- C9: legend assignment of the Comparator is deterministic across calls: two
successful calls with the same ordered run list and the same ordered metric list
(whatever their settings and held-out data) assemble identical legends and
identical train curves; every curve's color is the color of its run index alone
and its marker is the fixed marker of its metric index alone, and the legend
entries likewise key colors off run indices and markers off metric indices. -/
theorem compare_legend_deterministic (s1 s2 : ExperimentSettings)
    (es : List Experiment) (ms : List String) (d1 d2 : Dataset)
    (l1 l2 : List Rat) (o1 o2 : CompareOutput) (n1 n2 : Nat)
    (h1 : compare_experiment s1 es ms d1 l1 = (.ok o1, n1))
    (h2 : compare_experiment s2 es ms d2 l2 = (.ok o2, n2)) :
    o1.legend = o2.legend ∧ o1.trainCurves = o2.trainCurves ∧
    (∀ c ∈ o1.trainCurves, c.color = colorOfRun c.runIndex ∧
      markers[c.metricIndex]? = some c.marker) ∧
    (∀ (k : Nat) (m : String), ms[k]? = some m → ∃ mk, markers[k]? = some mk ∧
      o1.legend[k]? = some (⟨m, some mk, some "k"⟩ : LegendEntry)) ∧
    (∀ (k : Nat) (e : Experiment), es[k]? = some e →
      o1.legend[ms.length + k]? =
        some (⟨e.name, none, some (colorOfRun k)⟩ : LegendEntry)) := by
  obtain ⟨c1, g1, htc1, hle1, ho1c, ho1g⟩ := compare_ok_inv h1
  obtain ⟨c2, g2, htc2, hle2, ho2c, ho2g⟩ := compare_ok_inv h2
  have hc : c1 = c2 := by rw [htc1] at htc2; exact Except.ok.inj htc2
  have hg : g1 = g2 := by rw [hle1] at hle2; exact Except.ok.inj hle2
  obtain ⟨hmet, hrun⟩ := legendEntries_get hle1
  refine ⟨by rw [ho1g, ho2g, hg], by rw [ho1c, ho2c, hc], ?_, ?_, ?_⟩
  · rw [ho1c]
    exact trainCurvesOuter_mem htc1
  · intro k m hk
    rw [ho1g]
    exact hmet k m hk
  · intro k e hk
    rw [ho1g]
    exact hrun k e hk

/-- Witness for C9: two successful concrete calls on the same single run and
single metric, with different module-level settings and different held-out data,
assemble the same legend and curves, with index-determined colors and markers. -/
theorem compare_legend_deterministic_witness :
    demoOutputB.legend = demoOutputB.legend ∧
    demoOutputB.trainCurves = demoOutputB.trainCurves ∧
    (∀ c ∈ demoOutputB.trainCurves, c.color = colorOfRun c.runIndex ∧
      markers[c.metricIndex]? = some c.marker) ∧
    (∀ (k : Nat) (m : String), (["accuracy"] : List String)[k]? = some m →
      ∃ mk, markers[k]? = some mk ∧
        demoOutputB.legend[k]? = some (⟨m, some mk, some "k"⟩ : LegendEntry)) ∧
    (∀ (k : Nat) (e : Experiment), ([demoRunB] : List Experiment)[k]? = some e →
      demoOutputB.legend[(["accuracy"] : List String).length + k]? =
        some (⟨e.name, none, some (colorOfRun k)⟩ : LegendEntry)) :=
  compare_legend_deterministic moduleSettings probeSettings [demoRunB] ["accuracy"]
    demoData1 demoData2 demoLabels1 demoLabels2 demoOutputB demoOutputB 1 1 rfl rfl

/-- The precondition check of compare_experiment passes when every metric of
interest is present in every listed run (inner loop). -/
theorem findMissingIn_eq_none_of {metric : String} :
    ∀ {es : List Experiment},
      (∀ e ∈ es, (List.lookup metric e.metrics_history).isSome) →
      findMissingIn metric es = none := by
  intro es
  induction es with
  | nil => intro _; rfl
  | cons e rest ih =>
    intro h
    obtain ⟨x, hx⟩ := Option.isSome_iff_exists.mp (h e (List.mem_cons_self e rest))
    simp only [findMissingIn, hx, Option.isNone_some, Bool.false_eq_true, if_false]
    exact ih fun e2 he2 => h e2 (List.mem_cons_of_mem e he2)

/-- The precondition check of compare_experiment passes when every metric of
interest is present in every listed run. -/
theorem findMissing_eq_none_of {es : List Experiment} :
    ∀ {ms : List String},
      (∀ m ∈ ms, ∀ e ∈ es, (List.lookup m e.metrics_history).isSome) →
      findMissing ms es = none := by
  intro ms
  induction ms with
  | nil => intro _; rfl
  | cons m rest ih =>
    intro h
    have hin := findMissingIn_eq_none_of (h m (List.mem_cons_self m rest))
    simp only [findMissing, hin]
    exact ih fun m2 hm2 => h m2 (List.mem_cons_of_mem m hm2)

/-- The marker list holds exactly 6 symbols, so every index below 6 is in
range. -/
theorem markers_get_lt {i : Nat} (h : i < 6) : ∃ mk, markers[i]? = some mk := by
  interval_cases i <;> exact ⟨_, rfl⟩

/-- The marker list holds exactly 6 symbols, so index 6 is out of range. -/
theorem markers_get_six : (markers[6]? : Option String) = none := rfl

/-- The inner plot loop succeeds at a fixed metric index whose marker is in
range, provided the metric is present in every listed run. -/
theorem trainCurvesInner_ok_of {i : Nat} {metric : String} {mk : String}
    (hmk : markers[i]? = some mk) :
    ∀ {es : List Experiment} {j : Nat},
      (∀ e ∈ es, (List.lookup metric e.metrics_history).isSome) →
      ∃ cs, trainCurvesInner i metric j es = .ok cs := by
  intro es
  induction es with
  | nil => intro j _; exact ⟨[], rfl⟩
  | cons e rest ih =>
    intro j h
    obtain ⟨vals, hvals⟩ :=
      Option.isSome_iff_exists.mp (h e (List.mem_cons_self e rest))
    obtain ⟨cs, hcs⟩ := ih (j := j + 1) fun e2 he2 => h e2 (List.mem_cons_of_mem e he2)
    refine ⟨{ metricIndex := i, runIndex := j, marker := mk, color := colorOfRun j,
              epochs := e.epochs, values := vals } :: cs, ?_⟩
    simp only [trainCurvesInner, trainCurveAt, hvals, hmk, hcs]

/-- The outer plot loop over at least one run and a metric list that pushes the
marker index past the end of the 6-element marker list raises the IndexError at
index 6: markers of index below 6 succeed, and the first metric of index 6
fails inside the inner loop. -/
theorem trainCurvesOuter_index_error {es : List Experiment} (hne : es ≠ []) :
    ∀ {ms : List String} {i : Nat},
      (∀ m ∈ ms, ∀ e ∈ es, (List.lookup m e.metrics_history).isSome) →
      i ≤ 6 → 6 < i + ms.length →
      trainCurvesOuter i es ms = .error (PyError.indexError 6) := by
  intro ms
  induction ms with
  | nil => intro i _ hle hlt; simp at hlt; omega
  | cons m rest ih =>
    intro i h hle hlt
    rcases Nat.lt_or_ge i 6 with hi | hi
    · obtain ⟨mk, hmk⟩ := markers_get_lt hi
      obtain ⟨cs, hcs⟩ :=
        trainCurvesInner_ok_of hmk (j := 0) (h m (List.mem_cons_self m rest))
      have hrec := ih (i := i + 1)
        (fun m2 hm2 => h m2 (List.mem_cons_of_mem m hm2))
        (by omega) (by simp at hlt ⊢; omega)
      simp only [trainCurvesOuter, hcs, hrec]
    · have hi6 : i = 6 := by omega
      subst hi6
      obtain ⟨e, es2, rfl⟩ := List.exists_cons_of_ne_nil hne
      obtain ⟨vals, hvals⟩ := Option.isSome_iff_exists.mp
        (h m (List.mem_cons_self m rest) e (List.mem_cons_self e es2))
      simp only [trainCurvesOuter, trainCurvesInner, trainCurveAt, hvals,
        markers_get_six]

/-- The legend metric loop raises the IndexError at index 6 when the metric list
pushes the marker index past the end of the 6-element marker list. -/
theorem legendMetricEntries_index_error :
    ∀ {ms : List String} {i : Nat}, i ≤ 6 → 6 < i + ms.length →
      legendMetricEntries i ms = .error (PyError.indexError 6) := by
  intro ms
  induction ms with
  | nil => intro i hle hlt; simp at hlt; omega
  | cons m rest ih =>
    intro i hle hlt
    rcases Nat.lt_or_ge i 6 with hi | hi
    · obtain ⟨mk, hmk⟩ := markers_get_lt hi
      have hrec := ih (i := i + 1) (by omega) (by simp at hlt ⊢; omega)
      simp only [legendMetricEntries, hmk, hrec]
    · have hi6 : i = 6 := by omega
      subst hi6
      simp only [legendMetricEntries, markers_get_six]

/-- The plot loop over an empty run list performs no marker access and
succeeds with no curves. -/
theorem trainCurvesOuter_nil : ∀ (ms : List String) (i : Nat),
    trainCurvesOuter i [] ms = .ok [] := by
  intro ms
  induction ms with
  | nil => intro i; rfl
  | cons m rest ih =>
    intro i
    simp [trainCurvesOuter, trainCurvesInner, ih (i + 1)]

/-- C10: when every requested metric is present in every run (so the spec's
stated preconditions hold) but metrics_of_interest has more than 6 entries,
compare_experiment fails with the out-of-range IndexError at marker index 6,
before completing and without any Evaluator invocation. -/
theorem compare_too_many_metrics (settings : ExperimentSettings)
    (experiments : List Experiment) (metrics_of_interest : List String)
    (test_dataset : Dataset) (test_labels : List Rat)
    (hall : ∀ m ∈ metrics_of_interest, ∀ e ∈ experiments,
      (List.lookup m e.metrics_history).isSome)
    (hlen : 6 < metrics_of_interest.length) :
    compare_experiment settings experiments metrics_of_interest test_dataset
      test_labels = (.error (PyError.indexError 6), 0) := by
  have hfm := findMissing_eq_none_of hall
  cases experiments with
  | nil =>
    have hle := @legendMetricEntries_index_error metrics_of_interest 0
      (by omega) (by omega)
    simp only [compare_experiment, hfm, trainCurves, trainCurvesOuter_nil,
      legendEntries, hle]
  | cons e es2 =>
    have htc := @trainCurvesOuter_index_error (e :: es2) (by simp)
      metrics_of_interest 0 hall (by omega) (by omega)
    simp only [compare_experiment, hfm, trainCurves, htc]

/-- Witness for C10: requesting seven metrics, all present in the run
demoSevenMetrics, makes compare_experiment fail with the IndexError at marker
index 6 and zero Evaluator invocations. -/
theorem compare_too_many_metrics_witness :
    (∀ m ∈ sevenMetricNames, ∀ e ∈ [demoSevenMetrics],
      (List.lookup m e.metrics_history).isSome) ∧
    6 < sevenMetricNames.length ∧
    compare_experiment moduleSettings [demoSevenMetrics] sevenMetricNames
      probeData probeLabels = (.error (PyError.indexError 6), 0) :=
  ⟨by decide, by decide,
   compare_too_many_metrics moduleSettings [demoSevenMetrics] sevenMetricNames
     probeData probeLabels (by decide) (by decide)⟩

end RiceClassification
